import Mathlib

/-!
Verification of the Mars rover dashboard client core
(src/public/client.js) against its design specification.

The client keeps an immutable application state (an Immutable.js Map),
merges incoming patches with mergeDeep, and renders the state to a
markup string.  We embed the JavaScript runtime values that the client
manipulates as the inductive type Val below, and translate each
function of client.js that the claims mention into a Lean function
over Val.  Functions that can throw in JavaScript (property access on
undefined, .map on a non-collection, ...) return Except Unit; a value
of Except.error models a thrown TypeError.
-/

namespace MarsDash

/-- Runtime values of the client: the JavaScript undefined value,
booleans, strings, Immutable.js keyed maps (modelled as association
lists in insertion order, the order Immutable.js preserves for maps
built by fromJS / set / merge), Immutable.js indexed lists, and plain
JavaScript arrays.  All data the dashboard handles (application
state, rovers, galleries, photos) is built from the first five; a
plain array never reaches the state from the outside (fromJS converts
arrays to Lists), but Immutable 3.8 manufactures plain entry-pair
arrays internally when a keyed map is merged into an indexed list,
so the model carries them: a plain array is truthy, is neither an
Immutable Map nor an Immutable List, has no get, set or mergeDeep
method, and is not an Immutable iterable for the deep merger. -/
inductive Val : Type where
  | undef : Val
  | bool (b : Bool) : Val
  | str (s : String) : Val
  | vmap (entries : List (String × Val)) : Val
  | vlist (items : List Val) : Val
  | arr (items : List Val) : Val
  deriving Repr

mutual

/-- Structural equality test on runtime values, mirroring Immutable.js
value equality on maps and lists and strict equality on primitives
(the client compares rover names, which are strings). -/
def valBeq : Val → Val → Bool
  | Val.undef, Val.undef => true
  | .bool a, .bool b => a == b
  | .str a, .str b => a == b
  | .vmap a, .vmap b => entriesBeq a b
  | .vlist a, .vlist b => itemsBeq a b
  | _, _ => false

def entriesBeq : List (String × Val) → List (String × Val) → Bool
  | [], [] => true
  | (ka, va) :: as, (kb, vb) :: bs => ka == kb && valBeq va vb && entriesBeq as bs
  | _, _ => false

def itemsBeq : List Val → List Val → Bool
  | [], [] => true
  | a :: as, b :: bs => valBeq a b && itemsBeq as bs
  | _, _ => false

end

/-- JavaScript truthiness: undefined and false and the empty string are
falsy; every Immutable.js collection is truthy. -/
def truthy : Val → Bool
  | Val.undef => false
  | .bool b => b
  | .str s => s ≠ ""
  | .vmap _ => true
  | .vlist _ => true
  | .arr _ => true

/-- First binding of a key in an association list (Immutable.js map
lookup). -/
def lookupKey : List (String × Val) → String → Option Val
  | [], _ => none
  | (k0, v0) :: rest, k => if k0 = k then some v0 else lookupKey rest k

/-- Lookup of a key directly on a value; none when the value is not a
map or the key is absent. -/
def Val.lookup : Val → String → Option Val
  | .vmap m, k => lookupKey m k
  | _, _ => none

/-- Field of a map value, with undefined for an absent key (the result
of Immutable.js get on a map). -/
def fieldD (v : Val) (k : String) : Val :=
  (v.lookup k).getD Val.undef

/-- The JavaScript expression v.get(k): on an Immutable.js Map it
returns the binding or undefined; on an Immutable.js List a string key
is not a valid index, so get returns undefined; on undefined, booleans
and strings there is no get method and a TypeError is thrown. -/
def jsGet : Val → String → Except Unit Val
  | .vmap m, k => .ok ((lookupKey m k).getD Val.undef)
  | .vlist _, _ => .ok Val.undef
  | _, _ => .error ()

/-- The JavaScript optional chain v?.get(k): short-circuits to
undefined when v is undefined, otherwise behaves like v.get(k). -/
def optChainGet : Val → String → Except Unit Val
  | Val.undef, _ => .ok Val.undef
  | v, k => jsGet v k

/-- The JavaScript expression a or-else b (written with two vertical
bars in the source): the first operand when truthy, the second
otherwise. -/
def jsOr (a b : Val) : Val :=
  if truthy a then a else b

/-- The test Immutable.Map.isMap used by createRoverCard and
showRoverDetails. -/
def Val.isMap : Val → Bool
  | .vmap _ => true
  | _ => false

/-- Stringification performed by template-literal interpolation:
undefined interpolates as the literal text "undefined"; booleans and
strings as usual.  No claim interpolates a collection, so the
Immutable.js toString of collections is abbreviated here. -/
def interp : Val → String
  | Val.undef => "undefined"
  | .bool true => "true"
  | .bool false => "false"
  | .str s => s
  | .vmap _ => "Map \x7b\x7d"
  | .vlist _ => "List []"
  | .arr _ => "Array []"

/-- Entry replacement of Immutable.js Map.set and of the per-key step
of Map.merge: an existing key keeps its position, a new key is
appended. -/
def setEntry : List (String × Val) → String → Val → List (String × Val)
  | [], k, v => [(k, v)]
  | (k0, v0) :: t, k, v =>
    if k0 = k then (k0, v) :: t else (k0, v0) :: setEntry t k v

/-- One element of an indexed collection read as a [key, value]
entry, the way Immutable 3.8 reads elements when a sequence is merged
into a keyed map: KeyedIterable wraps the sequence in fromEntrySeq,
whose iteration takes entry.get(0) as the key and entry.get(1) as the
value of an Immutable element and entry[0] / entry[1] of a plain
array element.  A pair whose first component is a string yields that
binding, a one-element pair yields the key bound to undefined (get(1)
of a missing index).  An undefined element is skipped by the
iteration.  A primitive element makes the library throw (Expected
[K, V] tuple), and a pair whose key is not a string produces a
binding outside the string-keyed state space; neither outcome is
representable in this total string-keyed model and no value the
dashboard ever merges reaches them, so such elements are read as no
entry here. -/
def entryOfElem : Val → Option (String × Val)
  | .vlist (.str k :: v :: _) => some (k, v)
  | .vlist [.str k] => some (k, Val.undef)
  | .arr (.str k :: v :: _) => some (k, v)
  | .arr [.str k] => some (k, Val.undef)
  | _ => none

/-- The entry sequence Immutable 3.8 derives from an indexed
collection merged into a keyed map. -/
def entriesOfIndexed (p : List Val) : List (String × Val) :=
  p.filterMap entryOfElem

/-- The indexed sequence Immutable 3.8 derives from a keyed map
merged into an indexed list: entrySeq yields one plain [key, value]
array per binding. -/
def tuplesOfKeyed (p : List (String × Val)) : List Val :=
  p.map (fun kv => .arr [.str kv.1, kv.2])

/-- Index-wise overwrite of a list prefix, as happens when a keyed
map is merged into an indexed list: the derived entry tuples are
plain arrays, which the deep merger does not treat as iterable, so
each tuple writes over the element at its index (positions past the
current size are created by setSize first) and the longer tail is
kept. -/
def overwriteIdx : List Val → List Val → List Val
  | l, [] => l
  | [], p => p
  | _ :: xs, y :: ys => y :: overwriteIdx xs ys

/-- An entry read out of an element is smaller than the element. -/
theorem sizeOf_entryOfElem (e : Val) (k : String) (v : Val)
    (h : entryOfElem e = some (k, v)) : sizeOf (k, v) < sizeOf e := by
  unfold entryOfElem at h
  split at h <;> simp_all <;> obtain ⟨hk, hv⟩ := h <;> subst hk <;> subst hv <;>
    simp_arith

/-- The derived entry sequence is no larger than the indexed
collection it came from. -/
theorem sizeOf_entriesOfIndexed (p : List Val) :
    sizeOf (entriesOfIndexed p) ≤ sizeOf p := by
  induction p with
  | nil => simp [entriesOfIndexed]
  | cons e rest ih =>
    rw [entriesOfIndexed, List.filterMap_cons]
    rw [entriesOfIndexed] at ih
    cases he : entryOfElem e with
    | none =>
      simp only [he]
      have h1 : (1 : Nat) ≤ sizeOf e := by
        cases e <;> simp_arith
      simp_arith
      omega
    | some kv =>
      obtain ⟨k, v⟩ := kv
      have hlt := sizeOf_entryOfElem e k v he
      simp_arith at hlt
      simp only [he]
      simp_arith
      omega

mutual

/-- Deep merge of runtime values, the semantics of the Immutable.js
method state.mergeDeep(newState) used by updateApplicationState
(client.js line 20) with the Immutable 3.8 library the page loads.
The deep merger recurses exactly when the current value is an
Immutable collection (it has a mergeDeep method) and the patch value
is an Immutable iterable; in every other combination, in particular
whenever one side is a primitive or a plain array, the patch value
overwrites.  Two keyed maps merge per key (the patch entries are
folded in one key at a time; existing keys keep their position, new
keys are appended); two indexed lists merge index-wise with the
longer tail kept; an indexed list merged into a keyed map is read as
an entry sequence (entriesOfIndexed above) and its bindings are
folded in like map entries; a keyed map merged into an indexed list
is read as a sequence of plain [key, value] arrays (tuplesOfKeyed
above), and because plain arrays are not Immutable iterables each of
them overwrites the element at its index. -/
def mergeDeep : Val → Val → Val
  | .vmap m, .vmap p => .vmap (mergeEntries m p)
  | .vmap m, .vlist p => .vmap (mergeEntries m (entriesOfIndexed p))
  | .vlist l, .vlist p => .vlist (mergeIdx l p)
  | .vlist l, .vmap p => .vlist (overwriteIdx l (tuplesOfKeyed p))
  | _, n => n
termination_by _ b => sizeOf b
decreasing_by
  all_goals simp_wf
  all_goals first
    | omega
    | (have hle := sizeOf_entriesOfIndexed p
       omega)

def mergeEntries : List (String × Val) → List (String × Val) → List (String × Val)
  | m, [] => m
  | m, (k, v) :: rest =>
    mergeEntries
      (setEntry m k
        (match lookupKey m k with
          | some old => mergeDeep old v
          | none => v))
      rest
termination_by _ p => sizeOf p
decreasing_by
  all_goals simp_wf
  all_goals omega

def mergeIdx : List Val → List Val → List Val
  | l, [] => l
  | [], p => p
  | x :: xs, y :: ys => mergeDeep x y :: mergeIdx xs ys
termination_by _ p => sizeOf p
decreasing_by
  all_goals simp_wf
  all_goals omega

end

mutual

/-- Reference merge written from the specification text of section 4.1
of the spec: "for each key present in patch, recursively merge into
current if both sides are mapping-typed, otherwise overwrite.  Keys
absent from patch are preserved unchanged."  It recurses exactly when
both sides are mappings; every other conflict, including two
sequences, is an overwrite. -/
def specMergeC2 : Val → Val → Val
  | .vmap m, .vmap p => .vmap (specMergeEntries m p)
  | _, n => n

def specMergeEntries : List (String × Val) → List (String × Val) → List (String × Val)
  | m, [] => m
  | m, (k, v) :: rest => specMergeEntries (specMergeEntry m k v) rest

def specMergeEntry : List (String × Val) → String → Val → List (String × Val)
  | [], k, v => [(k, v)]
  | (k0, v0) :: t, k, v =>
    if k0 = k then (k0, specMergeC2 v0 v) :: t else (k0, v0) :: specMergeEntry t k v

end

/-- The state update of updateApplicationState (client.js lines
14-23): merge the patch into the current state; rendering the merged
state and running the optional callback are modelled at the call
sites. -/
def updateApplicationState (state newState : Val) : Val :=
  mergeDeep state newState

/-- One escaped character of JSON.stringify output: the double quote
and the backslash are escaped with a backslash, the common control
characters get their short escapes, the remaining control characters
get a lowercase unicode escape, and every other character stands for
itself. -/
def escCharL (c : Char) : List Char :=
  if c = '\x22' then ['\\', '\x22']
  else if c = '\\' then ['\\', '\\']
  else if c = '\x0a' then ['\\', 'n']
  else if c = '\x09' then ['\\', 't']
  else if c = '\x0d' then ['\\', 'r']
  else if c = '\x08' then ['\\', 'b']
  else if c = '\x0c' then ['\\', 'f']
  else if c.toNat < 32 then
    ['\\', 'u', '0', '0',
      (if c.toNat / 16 < 10 then Char.ofNat (48 + c.toNat / 16) else Char.ofNat (87 + c.toNat / 16)),
      (if c.toNat % 16 < 10 then Char.ofNat (48 + c.toNat % 16) else Char.ofNat (87 + c.toNat % 16))]
  else [c]

/-- JSON string escaping applied character by character. -/
def escL : List Char → List Char
  | [] => []
  | c :: rest => escCharL c ++ escL rest

/-- Comma separated concatenation, as produced by JSON.stringify for
object members and array items. -/
def joinCommaL : List (List Char) → List Char
  | [] => []
  | [x] => x
  | x :: xs => x ++ ',' :: joinCommaL xs

mutual

/-- JSON.stringify on runtime values, at the character-list level.
The result is none exactly when the JavaScript call returns the
undefined value instead of a string (stringifying undefined itself).
Immutable.js collections serialize through their toJSON methods as
plain objects and arrays; map entries keep insertion order, and
entries whose value is undefined are omitted, while undefined inside
an array serializes as null. -/
def jsonStringifyL : Val → Option (List Char)
  | Val.undef => none
  | .bool true => some ("true".data)
  | .bool false => some ("false".data)
  | .str s => some ('\x22' :: escL s.data ++ ['\x22'])
  | .vmap m => some ('\x7b' :: joinCommaL (jsonMembersL m) ++ ['\x7d'])
  | .vlist l => some ('[' :: joinCommaL (jsonItemsL l) ++ [']'])
  | .arr l => some ('[' :: joinCommaL (jsonItemsL l) ++ [']'])

def jsonMembersL : List (String × Val) → List (List Char)
  | [] => []
  | (k, v) :: rest =>
    match jsonStringifyL v with
    | none => jsonMembersL rest
    | some sv => ('\x22' :: escL k.data ++ ['\x22'] ++ [':'] ++ sv) :: jsonMembersL rest

def jsonItemsL : List Val → List (List Char)
  | [] => []
  | v :: rest => ((jsonStringifyL v).getD ("null".data)) :: jsonItemsL rest

end

/-- The global replacement of client.js line 207: every double quote
of the serialized JSON becomes a single quote. -/
def replChar (c : Char) : Char :=
  if c = '\x22' then '\x27' else c

/-- The serializer convertToJSON of client.js line 207:
JSON.stringify(obj).replace(/doublequote/g, quote).  When stringify
returns undefined instead of a string, the .replace call throws. -/
def convertToJSON (v : Val) : Except Unit String :=
  match jsonStringifyL v with
  | none => .error ()
  | some l => .ok (String.mk (l.map replChar))

/-- Decoding of one character escape in a JavaScript single-quoted
string literal; an escape with no special meaning stands for the
escaped character itself. -/
def unescChar (c : Char) : Char :=
  if c = 'n' then '\x0a'
  else if c = 't' then '\x09'
  else if c = 'r' then '\x0d'
  else if c = 'b' then '\x08'
  else if c = 'f' then '\x0c'
  else if c = 'v' then '\x0b'
  else if c = '0' then '\x00'
  else c

/-- Value of a hexadecimal digit, none for other characters. -/
def hexVal? (c : Char) : Option Nat :=
  if 48 ≤ c.toNat ∧ c.toNat ≤ 57 then some (c.toNat - 48)
  else if 97 ≤ c.toNat ∧ c.toNat ≤ 102 then some (c.toNat - 87)
  else if 65 ≤ c.toNat ∧ c.toNat ≤ 70 then some (c.toNat - 55)
  else none

/-- Body of a JavaScript single-quoted string literal, consumed up to
the closing quote, with backslash escapes decoded as the JavaScript
parser decodes them. -/
def parseStrBody (acc : List Char) : List Char → Option (String × List Char)
  | [] => none
  | c :: rest =>
    if c = '\x27' then some (String.mk acc, rest)
    else if c = '\\' then
      match rest with
      | 'u' :: a :: b :: c2 :: d :: rest2 =>
        (match hexVal? a, hexVal? b, hexVal? c2, hexVal? d with
          | some ha, some hb, some hc, some hd =>
            parseStrBody (acc ++ [Char.ofNat (((ha * 16 + hb) * 16 + hc) * 16 + hd)]) rest2
          | _, _, _, _ => none)
      | e :: rest2 => parseStrBody (acc ++ [unescChar e]) rest2
      | [] => none
    else parseStrBody (acc ++ [c]) rest

mutual

/-- The JavaScript engine parsing the object-literal dialect that
convertToJSON emits (single-quoted strings, objects, arrays, true and
false), as it happens when the browser evaluates an inline onclick
action whose argument was embedded by convertToJSON.  Fuel only bounds
the nesting depth and member count so the definitions are structural;
the entry point supplies more fuel than any input can consume. -/
def parseVal : Nat → List Char → Option (Val × List Char)
  | 0, _ => none
  | _ + 1, '\x7b' :: '\x7d' :: rest => some (.vmap [], rest)
  | fuel + 1, '\x7b' :: rest => parseMembers fuel rest []
  | _ + 1, '[' :: ']' :: rest => some (.vlist [], rest)
  | fuel + 1, '[' :: rest => parseItems fuel rest []
  | _ + 1, '\x27' :: rest => (parseStrBody [] rest).map (fun p => (Val.str p.1, p.2))
  | _ + 1, 't' :: 'r' :: 'u' :: 'e' :: rest => some (.bool true, rest)
  | _ + 1, 'f' :: 'a' :: 'l' :: 's' :: 'e' :: rest => some (.bool false, rest)
  | _ + 1, _ => none

def parseMembers : Nat → List Char → List (String × Val) → Option (Val × List Char)
  | 0, _, _ => none
  | fuel + 1, '\x27' :: cs, acc =>
    match parseStrBody [] cs with
    | some (k, ':' :: cs2) =>
      match parseVal fuel cs2 with
      | some (v, ',' :: cs3) => parseMembers fuel cs3 (acc ++ [(k, v)])
      | some (v, '\x7d' :: cs3) => some (.vmap (acc ++ [(k, v)]), cs3)
      | _ => none
    | _ => none
  | _ + 1, _, _ => none

def parseItems : Nat → List Char → List Val → Option (Val × List Char)
  | 0, _, _ => none
  | fuel + 1, cs, acc =>
    match parseVal fuel cs with
    | some (v, ',' :: cs2) => parseItems fuel cs2 (acc ++ [v])
    | some (v, ']' :: cs2) => some (.vlist (acc ++ [v]), cs2)
    | _ => none

end

/-- Parse of a complete embedded argument: the whole string must be
consumed, as the JavaScript parser requires for a call argument. -/
def parseEmbedded (s : String) : Option Val :=
  match parseVal 64 s.data with
  | some (v, []) => some v
  | _ => none

/-- The loading spinner markup of showLoadingSpinner (client.js lines
122-128). -/
def showLoadingSpinner : String :=
  "\n  <div class=\"d-flex justify-content-center my-4\">\n    <div class=\"spinner-border text-primary\" style=\"width: 3rem; height: 3rem;\" role=\"status\">\n      <span class=\"visually-hidden\">Loading...</span>\n    </div>\n  </div>\n"

/-- The greeting of createGreeting (client.js lines 112-116): the
welcome line when the name is truthy, the plain greeting otherwise. -/
def createGreeting (name : Val) : String :=
  if truthy name then "<h2 class=\"display-4\">Welcome, " ++ interp name ++ "!</h2>"
  else "<h2 class=\"display-4\">Hello!</h2>"

/-- The camera access of createPhotoCard line 137 before the default
is applied: photo.get("camera")?.get("full_name"). -/
def photoCameraRaw (photo : Val) : Except Unit Val := do
  let c ← jsGet photo "camera"
  optChainGet c "full_name"

/-- The camera constant of createPhotoCard line 137, after the
or-else default and as it interpolates into the card template. -/
def photoCamera (photo : Val) : Except Unit String := do
  let r ← photoCameraRaw photo
  pure (interp (jsOr r (.str "Unknown Camera")))

/-- The date constant of createPhotoCard line 138. -/
def photoDate (photo : Val) : Except Unit String := do
  let d ← jsGet photo "earth_date"
  pure (interp (jsOr d (.str "Unknown Date")))

/-- The rover constant of createPhotoCard line 139. -/
def photoRover (photo : Val) : Except Unit String := do
  let r0 ← jsGet photo "rover"
  let r ← optChainGet r0 "name"
  pure (interp (jsOr r (.str "Unknown Rover")))

/-- Opening segment of the photo description of lines 141-144. -/
def dsA : String := "\n    Captured by the "

/-- Description segment between camera and date. -/
def dsB : String := " camera on "

/-- Description segment between date and rover. -/
def dsC : String :=
  ".<br /><br />\n    This image shows the Martian landscape as seen by the "

/-- Closing segment of the photo description. -/
def dsD : String := " rover.\n  "

/-- The description template of createPhotoCard lines 141-144. -/
def photoDescription (camera date rover : String) : String :=
  dsA ++ camera ++ dsB ++ date ++ dsC ++ rover ++ dsD

/-- Opening segment of the photo card of lines 146-156. -/
def pcA : String :=
  "\n    <div class=\"col mb-4\">\n      <div class=\"card border-secondary shadow-sm\">\n        <img src=\""

/-- Photo card segment between the image source and the alt text. -/
def pcB : String := "\" class=\"card-img-top\" alt=\""

/-- Photo card segment between the alt text and the title. -/
def pcC : String :=
  "\" style=\"object-fit: cover; height: 200px; width: 100%;\">\n        <div class=\"card-body\">\n          <h5 class=\"card-title\">"

/-- Photo card segment between the title and the description. -/
def pcD : String := "</h5>\n          <p class=\"card-text\">"

/-- Closing segment of the photo card. -/
def pcE : String := "</p>\n        </div>\n      </div>\n    </div>\n  "

/-- The card template of createPhotoCard lines 146-156. -/
def photoCardTemplate (url camera date rover : String) : String :=
  pcA ++ url ++ pcB ++ camera ++ pcC ++ rover ++ " - " ++ camera ++ pcD ++
  photoDescription camera date rover ++ pcE

/-- createPhotoCard (client.js lines 135-157). -/
def createPhotoCard (photo : Val) : Except Unit String := do
  let url ← jsGet photo "img_src"
  let camera ← photoCamera photo
  let date ← photoDate photo
  let rover ← photoRover photo
  pure (photoCardTemplate (interp url) camera date rover)

/-- The busy label of createRoverCard line 192. -/
def loadingLabel : String :=
  "<span class=\"spinner-border spinner-border-sm\" role=\"status\" aria-hidden=\"true\"></span> Loading..."

/-- The card template of createRoverCard lines 177-199. -/
def roverCardTemplate (name launch landing status stateJson roverJson label : String) : String :=
  "\n    <div class=\"col mb-4\">\n      <div class=\"card border-primary shadow-sm\">\n        <div class=\"card-body\">\n          <h5 class=\"card-title\">" ++
  name ++ "</h5>\n          <p class=\"card-text\">\n            <strong>Launch Date:</strong> " ++
  launch ++ "<br />\n            <strong>Landing Date:</strong> " ++
  landing ++ "<br />\n            <strong>Status:</strong> " ++
  status ++ "\n          </p>\n          <button class=\"btn btn-primary\" onclick=\"showRoverDetails(" ++
  stateJson ++ ", " ++ roverJson ++ ")\">\n            " ++ label ++
  "\n          </button>\n        </div>\n      </div>\n    </div>\n  "

/-- createRoverCard (client.js lines 165-200).  The isLoading flag
evaluates selectedRover.get("loading") only behind the isMap guard;
the roverName constant is null in the source when selectedRover is
not a map, modelled as undefined here, which only matters under the
conjunction with isLoading, and isLoading forces the map case. -/
def createRoverCard (state rover : Val) : Except Unit String := do
  let launch ← jsGet rover "launch_date"
  let landing ← jsGet rover "landing_date"
  let status ← jsGet rover "status"
  let selectedRover ← jsGet state "selectedRover"
  let isLoading := selectedRover.isMap && truthy (fieldD selectedRover "loading")
  let roverName := if selectedRover.isMap then fieldD selectedRover "name" else Val.undef
  let name ← jsGet rover "name"
  let stateJson ← convertToJSON state
  let roverJson ← convertToJSON rover
  let label := if isLoading && valBeq roverName name then loadingLabel else "View Latest Images"
  pure (roverCardTemplate (interp name) (interp launch) (interp landing) (interp status)
    stateJson roverJson label)

/-- The collection .map of the render sections, element by element in
order: a throw at some element aborts the traversal there, as the
JavaScript callback exception would. -/
def mapME (f : Val → Except Unit String) : List Val → Except Unit (List String)
  | [] => .ok []
  | x :: xs => do
    let y ← f x
    let ys ← mapME f xs
    pure (y :: ys)

/-- The rover list section of generateAppContent lines 45-47: one
card per rover joined with the empty separator when rovers is truthy,
the loading spinner otherwise.  Mapping over an Immutable.js Map maps
over its values; mapping over a primitive throws. -/
def roverCardsHtmlE (state rovers : Val) : Except Unit String :=
  if truthy rovers then
    match rovers with
    | .vlist l => do
      let cards ← mapME (createRoverCard state) l
      pure (String.join cards)
    | .vmap m => do
      let cards ← mapME (createRoverCard state) (m.map Prod.snd)
      pure (String.join cards)
    | .arr l => do
      let cards ← mapME (createRoverCard state) l
      pure (String.join cards)
    | _ => .error ()
  else pure showLoadingSpinner

/-- The gallery section of generateAppContent lines 49-54.  The
result some s is the string s; the result none is the undefined value
produced when the optional chain short-circuits because
gallery.get("photos") is undefined, which the template then
interpolates as the text "undefined". -/
def galleryHtmlE (gallery : Val) : Except Unit (Option String) :=
  if truthy gallery then do
    let photos ← jsGet gallery "photos"
    match photos with
    | Val.undef => pure none
    | .vlist l => do
      let cards ← mapME createPhotoCard l
      pure (some (String.join cards))
    | .vmap m => do
      let cards ← mapME createPhotoCard (m.map Prod.snd)
      pure (some (String.join cards))
    | .arr l => do
      let cards ← mapME createPhotoCard l
      pure (some (String.join cards))
    | _ => .error ()
  else pure (some "")

/-- Literal segments of the application template, lines 58-87 of
client.js, split at the interpolation points. -/
def tplA : String :=
  "\n    <header class=\"bg-dark text-light py-4 shadow-sm\">\n      <div class=\"container d-flex justify-content-between align-items-center\">\n        <h1 class=\"text-center\">Mars Rover Dashboard</h1>\n        <button class=\"btn btn-outline-light\" onclick=\"toggleTheme("

/-- Segment between the serialized state and the theme label. -/
def tplB : String := ")\">\n          "

/-- Segment between the theme label and the main theme class. -/
def tplC : String :=
  "\n        </button>\n      </div>\n    </header>\n    <main class=\"container py-5 "

/-- Segment between the main theme class and the greeting. -/
def tplD : String :=
  "\">\n      <div class=\"alert alert-primary\">\n        "

/-- Segment between the greeting and the rover cards. -/
def tplE : String :=
  "\n        <p class=\"lead\">Explore Mars rover images and information from the NASA API.</p>\n      </div>\n      <div class=\"row row-cols-1 row-cols-md-4 g-2 justify-content-center\">\n        "

/-- Segment between the rover cards and the gallery. -/
def tplF : String :=
  "\n      </div>\n      <div class=\"row row-cols-1 row-cols-md-3 g-4 mt-4\">\n        "

/-- Segment between the gallery and the footer theme class. -/
def tplG : String :=
  "\n      </div>\n      <button id=\"scrollToTopBtn\" title=\"Go to top\" onclick=\"scrollToTop()\"><i class=\"fa-solid fa-arrow-up\"></i></button>\n    </main>\n    <footer class=\"py-3 text-center "

/-- Closing segment of the template. -/
def tplH : String :=
  "\">\n      <div class=\"container\">\n        <p class=\"mb-0\">Â© 2024 Mars Rover Dashboard</p>\n      </div>\n    </footer>\n  "

/-- The assembled application template of lines 58-87. -/
def appTemplate (stateJson label themeClass greeting roverCardsHtml galleryHtml : String) : String :=
  tplA ++ stateJson ++ tplB ++ label ++ tplC ++ themeClass ++ tplD ++ greeting ++
  tplE ++ roverCardsHtml ++ tplF ++ galleryHtml ++ tplG ++ themeClass ++ tplH

/-- generateAppContent (client.js lines 39-88).  The reads of lines
40-43 cannot throw once the state itself is a map; the rover section
and the gallery section are evaluated before the template, and inside
the template the only throwing interpolation is user.get("name") of
line 71, evaluated after both sections.  A gallery section that
short-circuited to undefined interpolates as the text
"undefined". -/
def generateAppContent (state : Val) : Except Unit String := do
  let user ← jsGet state "user"
  let rovers ← jsGet state "rovers"
  let gallery ← jsGet state "selectedRoverGallery"
  let darkMode ← jsGet state "isDarkMode"
  let roverCardsHtml ← roverCardsHtmlE state rovers
  let galleryHtml ← galleryHtmlE gallery
  let themeClass := if truthy darkMode then "dark-mode" else "light-mode"
  let stateJson ← convertToJSON state
  let userName ← jsGet user "name"
  pure (appTemplate stateJson (if truthy darkMode then "Light Mode" else "Dark Mode")
    themeClass (createGreeting userName) roverCardsHtml (galleryHtml.getD "undefined"))

/-- The JavaScript call v.set(k, x): defined on maps, a TypeError on
primitives. -/
def valSet : Val → String → Val → Except Unit Val
  | .vmap m, k, v => .ok (.vmap (setEntry m k v))
  | _, _, _ => .error ()

/-- showRoverDetails (client.js lines 214-230): build the Loading
patch, with selectedRoverGallery reset to false and the selected
rover extended with a true loading flag, and merge it into the state
through updateApplicationState.  Immutable.fromJS on values already
modelled by Val is the identity here, and the Map.isMap branch of
lines 215-217 is therefore the identity as well.  The triggered photo
fetch is the callback fetchRoverData below, invoked with the merged
state. -/
def showRoverDetails (state rover : Val) : Except Unit Val := do
  let withLoading ← valSet rover "loading" (.bool true)
  pure (updateApplicationState state
    (.vmap [("selectedRoverGallery", .bool false), ("selectedRover", withLoading)]))

/-- fetchRoverData (client.js lines 236-249) up to its network
request: it reads name and max_date from the selected rover of the
state it was handed and calls fetchRoverPhotos exactly once with
them.  The returned list is the list of fetchRoverPhotos invocations
the body performs, in order. -/
def fetchRoverData (state : Val) : Except Unit (List (Val × Val)) := do
  let selectedRover ← jsGet state "selectedRover"
  let n ← jsGet selectedRover "name"
  let md ← jsGet selectedRover "max_date"
  pure [(n, md)]

/-- Resolution of the photo fetch started by fetchRoverData (client.js
lines 241-247): the callback closes over the state fetchRoverData was
given and merges the Loaded patch into that captured state, whatever
state the application has rendered in the meantime. -/
def fetchRoverDataResolve (captured data : Val) : Val :=
  updateApplicationState captured
    (.vmap [("selectedRoverGallery", data), ("selectedRover", .vmap [("loading", .bool false)])])

/-- The initial application state of the load handler (client.js
lines 275-280). -/
def initialState : Val :=
  .vmap [("user", .vmap [("name", .str "Student")]),
         ("selectedRover", .bool false),
         ("selectedRoverGallery", .bool false),
         ("isDarkMode", .bool false)]


/-- A key that is not among the keys of an association list has no
binding. -/
theorem lookupKey_eq_none_of_not_mem (m : List (String × Val)) (k : String)
    (h : k ∉ m.map Prod.fst) : lookupKey m k = none := by
  induction m with
  | nil => rfl
  | cons hd tl ih =>
    obtain ⟨k0, v0⟩ := hd
    simp only [List.map_cons, List.mem_cons] at h
    push_neg at h
    have h0 : ¬ (k0 = k) := fun he => h.1 he.symm
    simp [lookupKey, h0, ih h.2]

/-- Lookup after Map.set: the set key holds the new value and every
other key is unchanged. -/
theorem lookupKey_setEntry (m : List (String × Val)) (k0 : String) (v0 : Val) (k : String) :
    lookupKey (setEntry m k0 v0) k = if k = k0 then some v0 else lookupKey m k := by
  induction m with
  | nil =>
    by_cases h : k = k0
    · simp [setEntry, lookupKey, h]
    · have h0 : ¬ (k0 = k) := fun he => h he.symm
      simp [setEntry, lookupKey, h, h0]
  | cons hd tl ih =>
    obtain ⟨kh, vh⟩ := hd
    by_cases h1 : kh = k0
    · subst h1
      by_cases h2 : k = kh
      · subst h2
        simp [setEntry, lookupKey]
      · have h0 : ¬ (kh = k) := fun he => h2 he.symm
        simp [setEntry, lookupKey, h2, h0]
    · by_cases h2 : kh = k
      · subst h2
        simp [setEntry, lookupKey, h1]
      · simp [setEntry, lookupKey, h1, h2, ih]

/-- Per-key characterization of the map part of mergeDeep: provided
the patch binds each key once, a key present in the patch maps to the
one-step merge of its bindings and a key absent from the patch keeps
its binding of the current map. -/
theorem lookupKey_mergeEntries (p m : List (String × Val)) (k : String)
    (hnd : (p.map Prod.fst).Nodup) :
    lookupKey (mergeEntries m p) k =
      match lookupKey p k with
      | none => lookupKey m k
      | some pv =>
        some (match lookupKey m k with
          | some cv => mergeDeep cv pv
          | none => pv) := by
  induction p generalizing m with
  | nil => simp [mergeEntries, lookupKey]
  | cons hd rest ih =>
    obtain ⟨k0, v0⟩ := hd
    simp only [List.map_cons, List.nodup_cons] at hnd
    rw [show mergeEntries m ((k0, v0) :: rest) =
        mergeEntries (setEntry m k0 (match lookupKey m k0 with
          | some old => mergeDeep old v0
          | none => v0)) rest from by simp [mergeEntries]]
    rw [ih _ hnd.2]
    by_cases h : k = k0
    · subst h
      rw [lookupKey_eq_none_of_not_mem rest k hnd.1]
      simp [lookupKey_setEntry, lookupKey]
    · have h0 : ¬ (k0 = k) := fun he => h he.symm
      rw [lookupKey_setEntry]
      simp [h, h0, lookupKey]

/-- Index-wise characterization of the list part of mergeDeep: where
both lists have an entry the entries merge, where only one has an
entry that entry is kept. -/
theorem mergeIdx_getElem? (l p : List Val) (i : Nat) :
    (mergeIdx l p)[i]? =
      match p[i]?, l[i]? with
      | some pv, some lv => some (mergeDeep lv pv)
      | some pv, none => some pv
      | none, o => o := by
  induction l generalizing p i with
  | nil =>
    cases p with
    | nil => simp [mergeIdx]
    | cons y ys =>
      cases hp : (y :: ys)[i]? <;> simp [mergeIdx, hp]
  | cons x xs ih =>
    cases p with
    | nil => simp [mergeIdx]
    | cons y ys =>
      cases i with
      | zero => simp [mergeIdx]
      | succ j => simpa [mergeIdx] using ih ys j

/-- Test for an indexed list value. -/
def Val.isList : Val → Bool
  | .vlist _ => true
  | _ => false

/-- Overwrite case of mergeDeep: when either side fails the deep
merger\x27s guard — the current value is not an Immutable collection
(no mergeDeep method), or the patch value is not an Immutable
iterable — the patch value replaces the current value. -/
theorem mergeDeep_overwrite (a b : Val)
    (h : (a.isMap || a.isList) = false ∨ (b.isMap || b.isList) = false) :
    mergeDeep a b = b := by
  cases a <;> cases b <;> simp_all [mergeDeep, Val.isMap, Val.isList]

/-- The keys after Map.set are the old keys, extended with the set key
when it was absent. -/
theorem setEntry_keys (m : List (String × Val)) (k0 : String) (v0 : Val) :
    (setEntry m k0 v0).map Prod.fst =
      if k0 ∈ m.map Prod.fst then m.map Prod.fst else m.map Prod.fst ++ [k0] := by
  induction m with
  | nil => simp [setEntry]
  | cons hd tl ih =>
    obtain ⟨kh, vh⟩ := hd
    by_cases h1 : kh = k0
    · subst h1
      simp [setEntry]
    · have h0 : ¬ (k0 = kh) := fun he => h1 he.symm
      simp [setEntry, h1, h0, ih]
      split_ifs <;> simp_all

/-- A list of results, one per input, when every element of the input
maps to an ok result. -/
theorem mapME_ok_of_forall (f : Val → Except Unit String) (l : List Val)
    (h : ∀ x ∈ l, ∃ y, f x = .ok y) :
    ∃ out, mapME f l = .ok out ∧ List.Forall₂ (fun x y => f x = .ok y) l out := by
  induction l with
  | nil => exact ⟨[], rfl, List.Forall₂.nil⟩
  | cons a as ih =>
    obtain ⟨y, hy⟩ := h a (List.mem_cons_self a as)
    obtain ⟨out, hout, hrel⟩ := ih (fun x hx => h x (List.mem_cons_of_mem a hx))
    refine ⟨y :: out, ?_, List.Forall₂.cons hy hrel⟩
    simp [mapME, hy, hout, bind, Except.bind, pure, Except.pure]


/-- Fields of a rover record as fetched from the API, used in
concrete scenarios. -/
def roverAFields : List (String × Val) :=
  [("name", .str "Curiosity"), ("launch_date", .str "2011-11-26"),
   ("landing_date", .str "2012-08-06"), ("status", .str "active"),
   ("max_date", .str "2024-02-19")]

/-- A rover record as fetched from the API, used in concrete
scenarios. -/
def roverA : Val := .vmap roverAFields

/-- A second rover record, used in concrete scenarios. -/
def roverB : Val :=
  .vmap [("name", .str "Spirit"), ("launch_date", .str "2003-06-10"),
         ("landing_date", .str "2004-01-04"), ("status", .str "complete"),
         ("max_date", .str "2010-03-21")]

/-- The state after the initial load merged the rover list, the point
from which rovers are selected. -/
def raceStart : Val :=
  updateApplicationState initialState (.vmap [("rovers", .vlist [roverA, roverB])])

/-- A gallery as deserialized from the photo response for the first
rover. -/
def galleryA : Val :=
  .vmap [("photos", .vlist [.vmap [("img_src", .str "photoA.jpg")]])]

/-- Current state for the C2 counterexample: a state holding a rover
list. -/
def c2cur : Val :=
  .vmap [("rovers", .vlist [.vmap [("name", .str "Curiosity")],
                            .vmap [("name", .str "Spirit")]])]

/-- Patch for the C2 counterexample: a shorter rover list under the
same key. -/
def c2patch : Val :=
  .vmap [("rovers", .vlist [.vmap [("name", .str "Perseverance")]])]

/-- C2, counterexample.  The merge the Update Coordinator uses
(Immutable.js mergeDeep) does not equal the reference merge written
from the specification text: on two sequences under the same key
mergeDeep merges index-wise, while the reference definition, whose
only recursive case is two mappings, overwrites.  The merged rover
list keeps the second entry of the current list, which the reference
merge discards. -/
theorem mergeDeep_ne_specMerge_on_sequences :
    mergeDeep c2cur c2patch ≠ specMergeC2 c2cur c2patch ∧
    mergeDeep c2cur c2patch =
      .vmap [("rovers", .vlist [.vmap [("name", .str "Perseverance")],
                                .vmap [("name", .str "Spirit")]])] ∧
    specMergeC2 c2cur c2patch =
      .vmap [("rovers", .vlist [.vmap [("name", .str "Perseverance")]])] := by
  refine ⟨?_, ?_, ?_⟩
  · simp [c2cur, c2patch, mergeDeep, mergeEntries, setEntry, lookupKey, mergeIdx,
      specMergeC2, specMergeEntries, specMergeEntry]
  · simp [c2cur, c2patch, mergeDeep, mergeEntries, setEntry, lookupKey, mergeIdx]
  · simp [c2cur, c2patch, specMergeC2, specMergeEntries, specMergeEntry]

/-- C2, amended.  Characterization of the merge the Update
Coordinator uses: for a patch that binds each key once, every key
present in the patch maps to the recursive merge of the two bindings
and every key absent from the patch keeps its current binding; two
mappings merge recursively key by key; two sequences merge
recursively index by index, keeping the longer tail; a sequence
patched into a mapping is folded in through the entry sequence the
library derives from it; a mapping patched into a sequence writes its
entry tuples over the prefix of the sequence; and the patch value
overwrites exactly when the guard of the deep merger fails, that is
when either side is not an Immutable collection. -/
theorem mergeDeep_characterization :
    (∀ (m p : List (String × Val)) (k : String), (p.map Prod.fst).Nodup →
      lookupKey (mergeEntries m p) k =
        match lookupKey p k with
        | none => lookupKey m k
        | some pv =>
          some (match lookupKey m k with
            | some cv => mergeDeep cv pv
            | none => pv)) ∧
    (∀ (m p : List (String × Val)), mergeDeep (.vmap m) (.vmap p) = .vmap (mergeEntries m p)) ∧
    (∀ (l p : List Val), mergeDeep (.vlist l) (.vlist p) = .vlist (mergeIdx l p)) ∧
    (∀ (l p : List Val) (i : Nat),
      (mergeIdx l p)[i]? =
        match p[i]?, l[i]? with
        | some pv, some lv => some (mergeDeep lv pv)
        | some pv, none => some pv
        | none, o => o) ∧
    (∀ (m : List (String × Val)) (p : List Val),
      mergeDeep (.vmap m) (.vlist p) = .vmap (mergeEntries m (entriesOfIndexed p))) ∧
    (∀ (l : List Val) (p : List (String × Val)),
      mergeDeep (.vlist l) (.vmap p) = .vlist (overwriteIdx l (tuplesOfKeyed p))) ∧
    (∀ a b : Val, (a.isMap || a.isList) = false ∨ (b.isMap || b.isList) = false →
      mergeDeep a b = b) := by
  refine ⟨fun m p k hnd => lookupKey_mergeEntries p m k hnd,
    fun m p => by simp [mergeDeep],
    fun l p => by simp [mergeDeep],
    fun l p i => mergeIdx_getElem? l p i,
    fun m p => by simp [mergeDeep],
    fun l p => by simp [mergeDeep],
    fun a b h => mergeDeep_overwrite a b h⟩

/-- Witness for the amended C2 characterization at concrete inputs: a
key absent from the patch keeps its binding, and a key present in the
patch with string bindings on both sides is overwritten. -/
theorem mergeDeep_characterization_witness :
    lookupKey (mergeEntries [("a", Val.str "x"), ("b", Val.str "y")] [("a", Val.str "z")]) "b" =
      some (Val.str "y") ∧
    lookupKey (mergeEntries [("a", Val.str "x"), ("b", Val.str "y")] [("a", Val.str "z")]) "a" =
      some (Val.str "z") := by
  constructor
  · exact (mergeDeep_characterization.1 [("a", Val.str "x"), ("b", Val.str "y")]
      [("a", Val.str "z")] "b" (by simp)).trans (by simp [lookupKey])
  · exact (mergeDeep_characterization.1 [("a", Val.str "x"), ("b", Val.str "y")]
      [("a", Val.str "z")] "a" (by simp)).trans (by simp [lookupKey, mergeDeep])

/-- The interleaving of C1: rover A is selected from the loaded
state, then, with the photo fetch of A still pending, rover B is
selected from the state the first selection rendered; afterwards the
pending fetch of A resolves and its callback merges the Loaded patch
into the state it captured, which is the state of A.  The value is
the state the application renders after processing the response of
A. -/
def raceStale : Except Unit Val := do
  let s1 ← showRoverDetails raceStart roverA
  let _s2 ← showRoverDetails s1 roverB
  pure (fetchRoverDataResolve s1 galleryA)

/-- The state rendered between the two fetches, after selecting rover
B: its selection is rover B. -/
def raceAfterB : Except Unit Val := do
  let s1 ← showRoverDetails raceStart roverA
  showRoverDetails s1 roverB

/-- C1.  Executing the scenario of the claim against the code: after
selecting Curiosity and then Spirit while the first photo fetch is in
flight, the selection of the rendered state is Spirit; but when the
late response for Curiosity is processed, the state rendered
afterwards carries selectedRover.name Curiosity, not Spirit: the
stale response overwrites the newer selection, because the Loaded
patch is merged into the state the fetch captured rather than being
discarded. -/
theorem race_stale_response_overwrites :
    raceAfterB.map (fun s => fieldD (fieldD s "selectedRover") "name") =
      .ok (.str "Spirit") ∧
    raceStale.map (fun s => fieldD (fieldD s "selectedRover") "name") =
      .ok (.str "Curiosity") ∧
    Val.str "Curiosity" ≠ Val.str "Spirit" := by
  refine ⟨?_, ?_, by simp⟩
  · simp [raceAfterB, raceStart, roverA, roverAFields, roverB, initialState, showRoverDetails,
      updateApplicationState, valSet, setEntry, mergeDeep, mergeEntries,
      mergeIdx, fieldD, Val.lookup, lookupKey, bind, Except.bind, pure, Except.pure,
      Except.map]
  · simp [raceStale, raceStart, roverA, roverAFields, roverB, galleryA, initialState, showRoverDetails,
      fetchRoverDataResolve, updateApplicationState, valSet, setEntry, mergeDeep,
      mergeEntries, mergeIdx, fieldD, Val.lookup, lookupKey,
      bind, Except.bind, pure, Except.pure, Except.map]


/-- A patch value that is a boolean always overwrites. -/
theorem mergeDeep_bool (a : Val) (b : Bool) : mergeDeep a (.bool b) = .bool b := by
  cases a <;> simp [mergeDeep]

/-- A key with some binding is among the keys. -/
theorem mem_keys_of_lookupKey (m : List (String × Val)) (k : String) (v : Val)
    (h : lookupKey m k = some v) : (k, v) ∈ m := by
  induction m with
  | nil => simp [lookupKey] at h
  | cons hd tl ih =>
    obtain ⟨k0, v0⟩ := hd
    by_cases h0 : k0 = k
    · subst h0
      simp [lookupKey] at h
      subst h
      exact List.mem_cons_self _ _
    · simp [lookupKey, h0] at h
      exact List.mem_cons_of_mem _ (ih h)

/-- A key that has no binding is not among the keys. -/
theorem not_mem_keys_of_lookupKey_eq_none (m : List (String × Val)) (k : String)
    (h : lookupKey m k = none) : k ∉ m.map Prod.fst := by
  induction m with
  | nil => simp
  | cons hd tl ih =>
    obtain ⟨k0, v0⟩ := hd
    by_cases h0 : k0 = k
    · subst h0
      simp [lookupKey] at h
    · simp [lookupKey, h0] at h
      simp [ih h]
      exact fun he => h0 he.symm

/-- Membership in a map after Map.set comes from the old map or is the
set binding. -/
theorem mem_setEntry (m : List (String × Val)) (k0 : String) (v0 : Val)
    (x : String × Val) (h : x ∈ setEntry m k0 v0) : x ∈ m ∨ x = (k0, v0) := by
  induction m with
  | nil => simp [setEntry] at h; simp [h]
  | cons hd tl ih =>
    obtain ⟨kh, vh⟩ := hd
    by_cases h1 : kh = k0
    · subst h1
      simp [setEntry] at h
      rcases h with h | h
      · exact Or.inr (by simp [h])
      · exact Or.inl (List.mem_cons_of_mem _ h)
    · simp [setEntry, h1] at h
      rcases h with h | h
      · exact Or.inl (by simp [h])
      · rcases ih h with h2 | h2
        · exact Or.inl (List.mem_cons_of_mem _ h2)
        · exact Or.inr h2

/-- Map.set preserves distinctness of keys. -/
theorem nodup_setEntry_keys (m : List (String × Val)) (k0 : String) (v0 : Val)
    (h : (m.map Prod.fst).Nodup) : ((setEntry m k0 v0).map Prod.fst).Nodup := by
  rw [setEntry_keys]
  split_ifs with hmem
  · exact h
  · simp [List.nodup_append, h, hmem]

/-- C9.  Merging the Loaded patch, whose selectedRover part is the
single-binding map with loading false, into a state whose
selectedRover is a mapping: the resulting selectedRover keeps every
binding other than loading unchanged, in particular its name, and its
loading binding becomes false. -/
theorem loadedPatch_preserves_selectedRover_fields (s : Val) (ms om : List (String × Val))
    (g : Val) (hs : s = .vmap ms)
    (hsel : lookupKey ms "selectedRover" = some (.vmap om)) :
    ∃ rm, fieldD (fetchRoverDataResolve s g) "selectedRover" = .vmap rm ∧
      rm = mergeEntries om [("loading", .bool false)] ∧
      lookupKey rm "loading" = some (.bool false) ∧
      (∀ k, k ≠ "loading" → lookupKey rm k = lookupKey om k) ∧
      lookupKey rm "name" = lookupKey om "name" := by
  subst hs
  have hmain : fieldD (fetchRoverDataResolve (.vmap ms) g) "selectedRover" =
      .vmap (mergeEntries om [("loading", .bool false)]) := by
    rw [show fetchRoverDataResolve (.vmap ms) g = .vmap (mergeEntries ms
      [("selectedRoverGallery", g), ("selectedRover", .vmap [("loading", .bool false)])]) from
      by simp [fetchRoverDataResolve, updateApplicationState, mergeDeep]]
    rw [fieldD, Val.lookup, lookupKey_mergeEntries _ _ _ (by simp)]
    simp [lookupKey, hsel, mergeDeep]
  have hload : lookupKey (mergeEntries om [("loading", .bool false)]) "loading" =
      some (.bool false) := by
    rw [lookupKey_mergeEntries _ _ _ (by simp)]
    cases hc : lookupKey om "loading" <;> simp [lookupKey, hc, mergeDeep_bool]
  have hframe : ∀ k, k ≠ "loading" →
      lookupKey (mergeEntries om [("loading", .bool false)]) k = lookupKey om k := by
    intro k hk
    rw [lookupKey_mergeEntries _ _ _ (by simp)]
    have h0 : ¬ ("loading" = k) := fun he => hk he.symm
    simp [lookupKey, h0]
  exact ⟨_, hmain, rfl, hload, hframe, hframe "name" (by decide)⟩

/-- A state in the Loading phase, used as witness input for C9. -/
def c9State : Val :=
  .vmap [("selectedRover", .vmap [("name", .str "Curiosity"), ("loading", .bool true)])]

/-- Witness for C9 at a concrete Loading state: after the Loaded
patch the name binding is still Curiosity and loading is false. -/
theorem loadedPatch_preserves_selectedRover_fields_witness :
    ∃ rm, fieldD (fetchRoverDataResolve c9State galleryA) "selectedRover" = .vmap rm ∧
      lookupKey rm "loading" = some (.bool false) ∧
      lookupKey rm "name" = some (.str "Curiosity") := by
  obtain ⟨rm, h1, _, h3, _, h5⟩ :=
    loadedPatch_preserves_selectedRover_fields c9State
      [("selectedRover", .vmap [("name", .str "Curiosity"), ("loading", .bool true)])]
      [("name", .str "Curiosity"), ("loading", .bool true)] galleryA rfl (by simp [lookupKey])
  refine ⟨rm, h1, h3, ?_⟩
  rw [h5]
  simp [lookupKey]


/-- C4.  Selecting a rover R (a mapping with distinct, non-collection
fields, as every rover deserialized from the API is) from a state
whose current selectedRover is either a primitive (absent, false) or
a mapping with no keys beyond R\u0027s keys and loading: the transition
produces a state whose selectedRoverGallery is false and whose
selectedRover binds exactly what R extended with a true loading flag
binds, and the callback run on the produced state performs exactly
one photo fetch whose arguments are the name and max_date bindings of
R. -/
theorem showRoverDetails_transition (s : Val) (ms rm : List (String × Val))
    (hs : s = .vmap ms)
    (hnd : (rm.map Prod.fst).Nodup)
    (hscal : ∀ kv ∈ rm, kv.2.isMap = false ∧ kv.2.isList = false)
    (hold : ((fieldD s "selectedRover").isMap = false ∧
             (fieldD s "selectedRover").isList = false) ∨
            (∃ om, fieldD s "selectedRover" = .vmap om ∧
              ∀ k ∈ om.map Prod.fst, k ∈ rm.map Prod.fst ∨ k = "loading")) :
    ∃ s', showRoverDetails s (.vmap rm) = .ok s' ∧
      fieldD s' "selectedRoverGallery" = .bool false ∧
      (∀ k, (fieldD s' "selectedRover").lookup k =
        lookupKey (setEntry rm "loading" (.bool true)) k) ∧
      fetchRoverData s' = .ok
        [((lookupKey rm "name").getD Val.undef, (lookupKey rm "max_date").getD Val.undef)] := by
  subst hs
  set se := setEntry rm "loading" (.bool true) with hse
  have hse_scal : ∀ kv ∈ se, kv.2.isMap = false ∧ kv.2.isList = false := by
    intro kv hkv
    rcases mem_setEntry rm "loading" (.bool true) kv hkv with h | h
    · exact hscal kv h
    · rw [h]; exact ⟨rfl, rfl⟩
  have hse_nd : (se.map Prod.fst).Nodup := nodup_setEntry_keys rm _ _ hnd
  have hse_keys : ∀ k, k ∈ rm.map Prod.fst ∨ k = "loading" → k ∈ se.map Prod.fst := by
    intro k hk
    rw [hse, setEntry_keys]
    split_ifs with hmem
    · rcases hk with h | h
      · exact h
      · rw [h]; exact hmem
    · rcases hk with h | h
      · exact List.mem_append_left _ h
      · rw [h]; exact List.mem_append_right _ (by simp)
  set M := mergeEntries ms
    [("selectedRoverGallery", .bool false), ("selectedRover", .vmap se)] with hM
  have hstep : showRoverDetails (.vmap ms) (.vmap rm) = .ok (.vmap M) := by
    simp [showRoverDetails, valSet, updateApplicationState, mergeDeep, hse, hM,
      bind, Except.bind, pure, Except.pure]
  have hgal : fieldD (.vmap M) "selectedRoverGallery" = .bool false := by
    simp only [fieldD, Val.lookup, hM]
    rw [lookupKey_mergeEntries _ _ _ (by simp)]
    cases hg : lookupKey ms "selectedRoverGallery" <;> simp [lookupKey, hg, mergeDeep_bool]
  have hSR : ∃ sm, fieldD (.vmap M) "selectedRover" = .vmap sm ∧
      ∀ k, lookupKey sm k = lookupKey se k := by
    have hbase : fieldD (.vmap M) "selectedRover" =
        match lookupKey ms "selectedRover" with
        | some cv => mergeDeep cv (.vmap se)
        | none => .vmap se := by
      simp only [fieldD, Val.lookup, hM]
      rw [lookupKey_mergeEntries _ _ _ (by simp)]
      cases hq : lookupKey ms "selectedRover" <;> simp [lookupKey, hq]
    cases hq : lookupKey ms "selectedRover" with
    | none =>
      refine ⟨se, ?_, fun k => rfl⟩
      rw [hbase, hq]
    | some ov =>
      have hov : fieldD (.vmap ms) "selectedRover" = ov := by
        simp [fieldD, Val.lookup, hq]
      rcases hold with ⟨h1, h2⟩ | ⟨om, hom, homsub⟩
      · rw [hov] at h1 h2
        refine ⟨se, ?_, fun k => rfl⟩
        rw [hbase, hq]
        exact mergeDeep_overwrite ov (.vmap se) (Or.inl (by simp [h1, h2]))
      · rw [hov] at hom
        subst hom
        refine ⟨mergeEntries om se, ?_, ?_⟩
        · rw [hbase, hq]; simp [mergeDeep]
        · intro k
          rw [lookupKey_mergeEntries _ _ _ hse_nd]
          cases hk : lookupKey se k with
          | some sv =>
            have hmem := mem_keys_of_lookupKey se k sv hk
            have hsc := hse_scal (k, sv) hmem
            cases hc : lookupKey om k <;>
              simp [hc, mergeDeep_overwrite _ sv (Or.inr (by simp [hsc.1, hsc.2]))]
          | none =>
            have hnot := not_mem_keys_of_lookupKey_eq_none se k hk
            have hnotom : k ∉ om.map Prod.fst := fun hin => hnot (hse_keys k (homsub k hin))
            simp [lookupKey_eq_none_of_not_mem om k hnotom]
  obtain ⟨sm, hsm, hsmk⟩ := hSR
  have hqM : lookupKey M "selectedRover" = some (.vmap sm) := by
    have hx := hsm
    simp only [fieldD, Val.lookup] at hx
    cases hq2 : lookupKey M "selectedRover" with
    | none => rw [hq2] at hx; simp at hx
    | some x => rw [hq2] at hx; simpa using hx
  refine ⟨.vmap M, hstep, hgal, ?_, ?_⟩
  · intro k
    rw [hsm]
    exact hsmk k
  · have hname : lookupKey sm "name" = lookupKey rm "name" := by
      rw [hsmk "name", hse, lookupKey_setEntry]
      simp
    have hmd : lookupKey sm "max_date" = lookupKey rm "max_date" := by
      rw [hsmk "max_date", hse, lookupKey_setEntry]
      simp
    simp [fetchRoverData, jsGet, hqM, hname, hmd, bind, Except.bind, pure, Except.pure]


/-- Witness for C4 at a concrete input: selecting Curiosity from the
loaded state yields the busy state and exactly one fetch with
Curiosity\u0027s name and max_date. -/
theorem showRoverDetails_transition_witness :
    ∃ s', showRoverDetails raceStart (.vmap roverAFields) = .ok s' ∧
      fieldD s' "selectedRoverGallery" = .bool false ∧
      (∀ k, (fieldD s' "selectedRover").lookup k =
        lookupKey (setEntry roverAFields "loading" (.bool true)) k) ∧
      fetchRoverData s' = .ok [(.str "Curiosity", .str "2024-02-19")] := by
  have hrs : raceStart = .vmap
      [("user", .vmap [("name", .str "Student")]), ("selectedRover", .bool false),
       ("selectedRoverGallery", .bool false), ("isDarkMode", .bool false),
       ("rovers", .vlist [roverA, roverB])] := by
    simp [raceStart, initialState, updateApplicationState, mergeDeep, mergeEntries,
      setEntry, lookupKey]
  obtain ⟨s', h1, h2, h3, h4⟩ :=
    showRoverDetails_transition raceStart _ roverAFields hrs
      (by decide) (by decide)
      (Or.inl ⟨by rw [hrs]; rfl, by rw [hrs]; rfl⟩)
  exact ⟨s', h1, h2, h3, h4⟩


/-- C7.  Defaults for missing photo fields: a photo mapping whose
camera.full_name access yields undefined gets the literal Unknown
Camera, a missing earth_date gets Unknown Date, a missing rover name
gets Unknown Rover; the card markup is the template applied to these
literals, and each literal occurs in the markup, so no undefined text
appears for these fields. -/
theorem createPhotoCard_defaults (p : Val) (m : List (String × Val)) (hp : p = .vmap m) :
    (photoCameraRaw p = .ok Val.undef → photoCamera p = .ok "Unknown Camera") ∧
    (lookupKey m "earth_date" = none → photoDate p = .ok "Unknown Date") ∧
    ((lookupKey m "rover" = none ∨
      ∃ rv, lookupKey m "rover" = some (.vmap rv) ∧ lookupKey rv "name" = none) →
      photoRover p = .ok "Unknown Rover") ∧
    (∀ cam date rov, photoCamera p = .ok cam → photoDate p = .ok date →
      photoRover p = .ok rov →
      createPhotoCard p = .ok
        (photoCardTemplate (interp (fieldD p "img_src")) cam date rov)) ∧
    (∀ url date rov, ∃ pre post,
      photoCardTemplate url "Unknown Camera" date rov = pre ++ "Unknown Camera" ++ post) ∧
    (∀ url cam rov, ∃ pre post,
      photoCardTemplate url cam "Unknown Date" rov = pre ++ "Unknown Date" ++ post) ∧
    (∀ url cam date, ∃ pre post,
      photoCardTemplate url cam date "Unknown Rover" = pre ++ "Unknown Rover" ++ post) := by
  subst hp
  refine ⟨?_, ?_, ?_, ?_, ?_, ?_, ?_⟩
  · intro h
    simp [photoCamera, h, jsOr, truthy, interp, bind, Except.bind, pure, Except.pure]
  · intro h
    simp [photoDate, jsGet, h, jsOr, truthy, interp, bind, Except.bind, pure, Except.pure]
  · intro h
    rcases h with h | ⟨rv, hrv, hname⟩
    · simp [photoRover, jsGet, h, optChainGet, jsOr, truthy, interp,
        bind, Except.bind, pure, Except.pure]
    · simp [photoRover, jsGet, hrv, hname, optChainGet, jsOr, truthy, interp,
        bind, Except.bind, pure, Except.pure]
  · intro cam date rov hcam hdate hrov
    simp [createPhotoCard, hcam, hdate, hrov, jsGet, fieldD, Val.lookup,
      bind, Except.bind, pure, Except.pure]
  · intro url date rov
    refine ⟨pcA ++ url ++ pcB, ?_, ?_⟩
    · exact pcC ++ rov ++ " - " ++ "Unknown Camera" ++ pcD ++
        photoDescription "Unknown Camera" date rov ++ pcE
    · simp [photoCardTemplate, String.append_assoc]
  · intro url cam rov
    refine ⟨pcA ++ url ++ pcB ++ cam ++ pcC ++ rov ++ " - " ++ cam ++ pcD ++
      dsA ++ cam ++ dsB, dsC ++ rov ++ dsD ++ pcE, ?_⟩
    simp [photoCardTemplate, photoDescription, String.append_assoc]
  · intro url cam date
    refine ⟨pcA ++ url ++ pcB ++ cam ++ pcC ++ "Unknown Rover" ++ " - " ++ cam ++ pcD ++
      dsA ++ cam ++ dsB ++ date ++ dsC, dsD ++ pcE, ?_⟩
    simp [photoCardTemplate, photoDescription, String.append_assoc]

/-- Witness for C7 at a concrete photo carrying only an image source:
all three defaults appear. -/
theorem createPhotoCard_defaults_witness :
    photoCamera (.vmap [("img_src", .str "x.jpg")]) = .ok "Unknown Camera" ∧
    photoDate (.vmap [("img_src", .str "x.jpg")]) = .ok "Unknown Date" ∧
    photoRover (.vmap [("img_src", .str "x.jpg")]) = .ok "Unknown Rover" ∧
    createPhotoCard (.vmap [("img_src", .str "x.jpg")]) = .ok
      (photoCardTemplate "x.jpg" "Unknown Camera" "Unknown Date" "Unknown Rover") := by
  have h := createPhotoCard_defaults (.vmap [("img_src", .str "x.jpg")]) _ rfl
  have h1 := h.1 rfl
  have h2 := h.2.1 rfl
  have h3 := h.2.2.1 (Or.inl rfl)
  have h4 := h.2.2.2.1 _ _ _ h1 h2 h3
  exact ⟨h1, h2, h3, h4⟩


/-- Success test for a modelled JavaScript computation. -/
def isOkE {α : Type} : Except Unit α → Bool
  | .ok _ => true
  | .error _ => false

/-- Success is the existence of an ok result. -/
theorem isOkE_iff {α : Type} (e : Except Unit α) : isOkE e = true ↔ ∃ y, e = .ok y := by
  cases e <;> simp [isOkE]

/-- Values on which a further get cannot throw inside an optional
chain: undefined (short-circuit) and collections. -/
def okField : Val → Bool
  | Val.undef => true
  | .vmap _ => true
  | .vlist _ => true
  | _ => false

/-- An optional chain over such a value yields the field (undefined
when the receiver is undefined or a list). -/
theorem optChainGet_ok (v : Val) (k : String) (hv : okField v = true) :
    optChainGet v k = .ok (fieldD v k) := by
  cases v <;> simp_all [okField, optChainGet, jsGet, fieldD, Val.lookup]

/-- Well-formed photo per the data model of spec section 3: a mapping
whose camera and rover fields, when present, are themselves
collections (their subfields are optional). -/
def wfPhoto : Val → Bool
  | .vmap m => okField (fieldD (.vmap m) "camera") && okField (fieldD (.vmap m) "rover")
  | _ => false

/-- Well-formed rovers value: absent (or the false placeholder), or a
sequence of rover mappings. -/
def wfRoversV : Val → Bool
  | Val.undef => true
  | .bool false => true
  | .vlist l => l.all Val.isMap
  | _ => false

/-- Well-formed gallery value per spec section 3: absent or false, or
a mapping whose photos field, when present, is a sequence of
well-formed photos. -/
def wfGalleryV : Val → Bool
  | Val.undef => true
  | .bool false => true
  | .vmap m =>
    (match lookupKey m "photos" with
      | none => true
      | some Val.undef => true
      | some (.vlist l) => l.all wfPhoto
      | some _ => false)
  | _ => false

/-- Well-formed application state per spec section 3: a mapping whose
user is a mapping and whose rovers and gallery have the shapes above.
The remaining keys (selectedRover, isDarkMode) are unconstrained: the
render guards every access to them. -/
def wfState : Val → Bool
  | .vmap ms =>
    ((lookupKey ms "user").getD Val.undef).isMap &&
    wfRoversV ((lookupKey ms "rovers").getD Val.undef) &&
    wfGalleryV ((lookupKey ms "selectedRoverGallery").getD Val.undef)
  | _ => false

/-- A well-formed photo renders to a card without throwing. -/
theorem createPhotoCard_isOk (p : Val) (hp : wfPhoto p = true) :
    isOkE (createPhotoCard p) = true := by
  cases p with
  | vmap m =>
    rw [wfPhoto, Bool.and_eq_true] at hp
    have hc := optChainGet_ok ((lookupKey m "camera").getD Val.undef) "full_name" hp.1
    have hr := optChainGet_ok ((lookupKey m "rover").getD Val.undef) "name" hp.2
    simp [createPhotoCard, photoCamera, photoCameraRaw, photoDate, photoRover, jsGet,
      hc, hr, bind, Except.bind, pure, Except.pure, isOkE]
  | undef => simp [wfPhoto] at hp
  | bool b => simp [wfPhoto] at hp
  | str s2 => simp [wfPhoto] at hp
  | vlist l => simp [wfPhoto] at hp
  | arr l => simp [wfPhoto] at hp

/-- A rover mapping renders to a card without throwing, from any
state mapping. -/
theorem createRoverCard_isOk (state rover : Val) (hs : state.isMap = true)
    (hr : rover.isMap = true) : isOkE (createRoverCard state rover) = true := by
  cases state with
  | vmap ms =>
    cases rover with
    | vmap rm =>
      simp [createRoverCard, jsGet, convertToJSON, jsonStringifyL,
        bind, Except.bind, pure, Except.pure, isOkE]
    | undef => simp [Val.isMap] at hr
    | bool b => simp [Val.isMap] at hr
    | str s2 => simp [Val.isMap] at hr
    | vlist l => simp [Val.isMap] at hr
    | arr l => simp [Val.isMap] at hr
  | undef => simp [Val.isMap] at hs
  | bool b => simp [Val.isMap] at hs
  | str s2 => simp [Val.isMap] at hs
  | vlist l => simp [Val.isMap] at hs
  | arr l => simp [Val.isMap] at hs

/-- The rover section renders without throwing on any well-formed
rovers value. -/
theorem roverCards_isOk (s rv : Val) (hs : s.isMap = true) (hrv : wfRoversV rv = true) :
    isOkE (roverCardsHtmlE s rv) = true := by
  cases rv with
  | undef => simp [roverCardsHtmlE, truthy, pure, Except.pure, isOkE]
  | bool b =>
    cases b with
    | false => simp [roverCardsHtmlE, truthy, pure, Except.pure, isOkE]
    | true => simp [wfRoversV] at hrv
  | str s2 => simp [wfRoversV] at hrv
  | vmap m => simp [wfRoversV] at hrv
  | arr l => simp [wfRoversV] at hrv
  | vlist l =>
    rw [wfRoversV, List.all_eq_true] at hrv
    obtain ⟨out, hout, _⟩ := mapME_ok_of_forall (createRoverCard s) l
      (fun x hx => (isOkE_iff _).mp (createRoverCard_isOk s x hs (hrv x hx)))
    simp [roverCardsHtmlE, truthy, hout, bind, Except.bind, pure, Except.pure, isOkE]

/-- The gallery section renders without throwing on any well-formed
gallery value. -/
theorem galleryHtml_isOk (g : Val) (hg : wfGalleryV g = true) :
    isOkE (galleryHtmlE g) = true := by
  cases g with
  | undef => simp [galleryHtmlE, truthy, pure, Except.pure, isOkE]
  | bool b =>
    cases b with
    | false => simp [galleryHtmlE, truthy, pure, Except.pure, isOkE]
    | true => simp [wfGalleryV] at hg
  | str s2 => simp [wfGalleryV] at hg
  | vlist l => simp [wfGalleryV] at hg
  | arr l => simp [wfGalleryV] at hg
  | vmap m =>
    rw [wfGalleryV] at hg
    cases hpq : lookupKey m "photos" with
    | none =>
      simp [galleryHtmlE, truthy, jsGet, hpq, bind, Except.bind, pure, Except.pure, isOkE]
    | some pv =>
      cases pv with
      | undef =>
        simp [galleryHtmlE, truthy, jsGet, hpq, bind, Except.bind, pure, Except.pure, isOkE]
      | vlist l =>
        rw [hpq] at hg
        simp only [List.all_eq_true] at hg
        obtain ⟨out, hout, _⟩ := mapME_ok_of_forall createPhotoCard l
          (fun x hx => (isOkE_iff _).mp (createPhotoCard_isOk x (hg x hx)))
        simp [galleryHtmlE, truthy, jsGet, hpq, hout,
          bind, Except.bind, pure, Except.pure, isOkE]
      | bool b => rw [hpq] at hg; simp at hg
      | str s2 => rw [hpq] at hg; simp at hg
      | vmap mm => rw [hpq] at hg; simp at hg
      | arr l2 => rw [hpq] at hg; simp at hg

/-- Reduction of get on a map value. -/
theorem jsGet_vmap (m : List (String × Val)) (k : String) :
    jsGet (.vmap m) k = .ok ((lookupKey m k).getD Val.undef) := rfl

/-- Assembled output of generateAppContent once its three fallible
sections are known: the markup is the template filled with the
serialized state, the theme label and class, the greeting and the two
sections, a gallery section that short-circuited to undefined
interpolating as the text "undefined". -/
theorem generateAppContent_eq (ms : List (String × Val)) (rc : String)
    (gl : Option String) (un : Val)
    (hun : jsGet ((lookupKey ms "user").getD Val.undef) "name" = .ok un)
    (hrc : roverCardsHtmlE (.vmap ms) ((lookupKey ms "rovers").getD Val.undef) = .ok rc)
    (hgl : galleryHtmlE ((lookupKey ms "selectedRoverGallery").getD Val.undef) = .ok gl) :
    generateAppContent (.vmap ms) = .ok (appTemplate
      (String.mk ((('\x7b' :: joinCommaL (jsonMembersL ms)) ++ ['\x7d']).map replChar))
      (if truthy ((lookupKey ms "isDarkMode").getD Val.undef) then "Light Mode" else "Dark Mode")
      (if truthy ((lookupKey ms "isDarkMode").getD Val.undef) then "dark-mode" else "light-mode")
      (createGreeting un) rc (gl.getD "undefined")) := by
  simp [generateAppContent, jsGet_vmap, hun, hrc, hgl, convertToJSON, jsonStringifyL,
    bind, Except.bind, pure, Except.pure]

/-- Rendering succeeds on every well-formed state. -/
theorem generateAppContent_wf_ok (s : Val) (h : wfState s = true) :
    isOkE (generateAppContent s) = true := by
  cases s with
  | vmap ms =>
    rw [wfState, Bool.and_eq_true, Bool.and_eq_true] at h
    obtain ⟨⟨huser, hrov⟩, hgal⟩ := h
    obtain ⟨rc, hrc⟩ := (isOkE_iff _).mp (roverCards_isOk (.vmap ms) _ rfl hrov)
    obtain ⟨gl, hgl⟩ := (isOkE_iff _).mp (galleryHtml_isOk _ hgal)
    have hun : ∃ un, jsGet ((lookupKey ms "user").getD Val.undef) "name" = .ok un := by
      cases hu : (lookupKey ms "user").getD Val.undef <;> rw [hu] at huser <;>
        simp_all [Val.isMap, jsGet]
    obtain ⟨un, hun⟩ := hun
    rw [generateAppContent_eq ms rc gl un hun hrc hgl]
    rfl
  | undef => simp [wfState] at h
  | bool b => simp [wfState] at h
  | str s2 => simp [wfState] at h
  | vlist l => simp [wfState] at h
  | arr l => simp [wfState] at h

/-- C3.  On every well-formed application state, including the
initial state in which rovers and gallery are absent, the render
evaluates without throwing to a markup string, and rendering is a
function of the state: equal states yield the identical string. -/
theorem generateAppContent_total_on_wf (s : Val) (h : wfState s = true) :
    (∃ mk, generateAppContent s = Except.ok mk) ∧
    ∀ t, t = s → generateAppContent t = generateAppContent s :=
  ⟨(isOkE_iff _).mp (generateAppContent_wf_ok s h), fun t ht => by rw [ht]⟩

/-- Witness for C3: the initial state is well-formed and renders to a
markup string. -/
theorem generateAppContent_total_on_wf_witness :
    wfState initialState = true ∧ ∃ mk, generateAppContent initialState = Except.ok mk :=
  ⟨rfl, (generateAppContent_total_on_wf initialState rfl).1⟩


/-- C8.  On a well-formed state whose rovers key is absent, the rover
section of the render is exactly the loading spinner (so no rover
card markup appears in it), and the full markup contains the spinner
between the fixed template segments. -/
theorem loading_placeholder_when_rovers_absent (s : Val) (ms : List (String × Val))
    (hs : s = .vmap ms) (hrov : lookupKey ms "rovers" = none) (hwf : wfState s = true) :
    roverCardsHtmlE s (fieldD s "rovers") = .ok showLoadingSpinner ∧
    ∃ mk pre post, generateAppContent s = .ok mk ∧ mk = pre ++ showLoadingSpinner ++ post := by
  subst hs
  constructor
  · simp [roverCardsHtmlE, truthy, fieldD, Val.lookup, hrov, pure, Except.pure]
  · rw [wfState, Bool.and_eq_true, Bool.and_eq_true] at hwf
    obtain ⟨⟨huser, hrovwf⟩, hgal⟩ := hwf
    obtain ⟨gl, hgl⟩ := (isOkE_iff _).mp (galleryHtml_isOk _ hgal)
    have hun : ∃ un, jsGet ((lookupKey ms "user").getD Val.undef) "name" = .ok un := by
      cases hu : (lookupKey ms "user").getD Val.undef <;> rw [hu] at huser <;>
        simp_all [Val.isMap, jsGet]
    obtain ⟨un, hun⟩ := hun
    have hrc : roverCardsHtmlE (.vmap ms) ((lookupKey ms "rovers").getD Val.undef) =
        .ok showLoadingSpinner := by
      simp [roverCardsHtmlE, truthy, hrov, pure, Except.pure]
    have hgen := generateAppContent_eq ms showLoadingSpinner gl un hun hrc hgl
    refine ⟨_,
      tplA ++ (String.mk ((('\x7b' :: joinCommaL (jsonMembersL ms)) ++ ['\x7d']).map replChar)) ++
        tplB ++ (if truthy ((lookupKey ms "isDarkMode").getD Val.undef) then "Light Mode" else "Dark Mode") ++
        tplC ++ (if truthy ((lookupKey ms "isDarkMode").getD Val.undef) then "dark-mode" else "light-mode") ++
        tplD ++ createGreeting un ++ tplE,
      tplF ++ gl.getD "undefined" ++
        tplG ++ (if truthy ((lookupKey ms "isDarkMode").getD Val.undef) then "dark-mode" else "light-mode") ++
        tplH,
      hgen, ?_⟩
    simp [appTemplate, String.append_assoc]

/-- Witness for C8: the initial state has no rovers and renders the
spinner in the rover slot. -/
theorem loading_placeholder_when_rovers_absent_witness :
    roverCardsHtmlE initialState (fieldD initialState "rovers") = .ok showLoadingSpinner ∧
    ∃ mk pre post, generateAppContent initialState = .ok mk ∧
      mk = pre ++ showLoadingSpinner ++ post :=
  loading_placeholder_when_rovers_absent initialState _ rfl rfl rfl

/-- C10, amended.  The render reads state.user and then user.name
unconditionally, so it throws whenever user is absent or a primitive
(undefined, boolean, string); a sequence-valued user, however, does
not throw, because a string key on an Immutable.js List reads as
undefined, so the precondition for totality is that user is a
collection, not specifically a mapping.  The greeting is the plain
Hello when the name is absent or empty and the welcome line with the
name otherwise. -/
theorem render_user_precondition (ms : List (String × Val)) :
    (∀ u, (lookupKey ms "user").getD Val.undef = u → u.isMap = false → u.isList = false →
      generateAppContent (.vmap ms) = .error ()) ∧
    createGreeting Val.undef = "<h2 class=\"display-4\">Hello!</h2>" ∧
    createGreeting (.str "") = "<h2 class=\"display-4\">Hello!</h2>" ∧
    (∀ nm : String, nm ≠ "" → createGreeting (.str nm) =
      "<h2 class=\"display-4\">Welcome, " ++ nm ++ "!</h2>") ∧
    (∀ lu, (lookupKey ms "user").getD Val.undef = .vlist lu →
      wfRoversV ((lookupKey ms "rovers").getD Val.undef) = true →
      wfGalleryV ((lookupKey ms "selectedRoverGallery").getD Val.undef) = true →
      ∃ mk, generateAppContent (.vmap ms) = .ok mk) := by
  refine ⟨?_, by simp [createGreeting, truthy], by simp [createGreeting, truthy], ?_, ?_⟩
  · intro u hu hm hl
    have herr : jsGet u "name" = .error () := by
      cases u <;> simp_all [Val.isMap, Val.isList, jsGet]
    cases hrc : roverCardsHtmlE (.vmap ms) ((lookupKey ms "rovers").getD Val.undef) with
    | error e =>
      cases e
      simp [generateAppContent, jsGet_vmap, hrc, bind, Except.bind]
    | ok rc =>
      cases hgl : galleryHtmlE ((lookupKey ms "selectedRoverGallery").getD Val.undef) with
      | error e =>
        cases e
        simp [generateAppContent, jsGet_vmap, hrc, hgl, bind, Except.bind]
      | ok gl =>
        simp [generateAppContent, jsGet_vmap, hrc, hgl, hu, herr, convertToJSON,
          jsonStringifyL, bind, Except.bind, pure, Except.pure]
  · intro nm hnm
    simp [createGreeting, truthy, interp, hnm]
  · intro lu hu hrvwf hgalwf
    obtain ⟨rc, hrc⟩ := (isOkE_iff _).mp (roverCards_isOk (.vmap ms) _ rfl hrvwf)
    obtain ⟨gl, hgl⟩ := (isOkE_iff _).mp (galleryHtml_isOk _ hgalwf)
    have hun : jsGet ((lookupKey ms "user").getD Val.undef) "name" = .ok Val.undef := by
      rw [hu]; rfl
    exact ⟨_, generateAppContent_eq ms rc gl Val.undef hun hrc hgl⟩

/-- A state whose user is a sequence, otherwise like the initial
state. -/
def c10State : Val :=
  .vmap [("user", .vlist []), ("selectedRover", .bool false),
         ("selectedRoverGallery", .bool false), ("isDarkMode", .bool false)]

/-- C10, counterexample to the claim as stated: a state whose user is
a sequence, which is not a mapping, still renders without throwing,
because a string key on an Immutable.js List reads as undefined and
the greeting falls back to Hello. -/
theorem render_succeeds_on_sequence_user :
    isOkE (generateAppContent c10State) = true ∧ (Val.vlist []).isMap = false :=
  ⟨rfl, rfl⟩

/-- Witness for the amended C10: a boolean user makes the render
throw, and a non-empty name renders the welcome line. -/
theorem render_user_precondition_witness :
    generateAppContent (.vmap [("user", .bool false)]) = .error () ∧
    createGreeting (.str "Student") = "<h2 class=\"display-4\">Welcome, Student!</h2>" := by
  constructor
  · exact (render_user_precondition [("user", .bool false)]).1 (.bool false) rfl rfl rfl
  · exact (render_user_precondition []).2.2.2.1 "Student" (by decide)

/-- State for the C5 counterexample: well-formed, with a truthy
gallery that has no photos key (as after deserializing an upstream
response that lacked photos). -/
def c5State : Val :=
  .vmap [("user", .vmap [("name", .str "Student")]), ("selectedRover", .bool false),
         ("selectedRoverGallery", .vmap []), ("isDarkMode", .bool false)]

/-- C5, counterexample.  When selectedRoverGallery is truthy but its
photos key is absent, the gallery section is not empty markup: the
optional chain short-circuits to undefined and the template
interpolates the literal text "undefined" into the gallery slot of
the rendered markup. -/
theorem gallery_undefined_when_photos_absent :
    galleryHtmlE (fieldD c5State "selectedRoverGallery") = .ok none ∧
    (∃ mk pre post, generateAppContent c5State = .ok mk ∧
      mk = pre ++ "undefined" ++ post) ∧
    ("undefined" : String) ≠ "" := by
  refine ⟨rfl, ?_, by decide⟩
  have hgen := generateAppContent_eq
    [("user", .vmap [("name", .str "Student")]), ("selectedRover", .bool false),
     ("selectedRoverGallery", .vmap []), ("isDarkMode", .bool false)]
    showLoadingSpinner none (.str "Student") rfl rfl rfl
  have hgen2 : generateAppContent c5State = .ok
      ((tplA ++ (String.mk ((('\x7b' :: joinCommaL (jsonMembersL
        [("user", .vmap [("name", .str "Student")]), ("selectedRover", .bool false),
         ("selectedRoverGallery", .vmap []), ("isDarkMode", .bool false)])) ++
        ['\x7d']).map replChar)) ++
        tplB ++ "Dark Mode" ++ tplC ++ "light-mode" ++ tplD ++
        createGreeting (.str "Student") ++ tplE ++ showLoadingSpinner ++ tplF) ++
        "undefined" ++ (tplG ++ "light-mode" ++ tplH)) := by
    rw [show c5State = .vmap
      [("user", .vmap [("name", .str "Student")]), ("selectedRover", .bool false),
       ("selectedRoverGallery", .vmap []), ("isDarkMode", .bool false)] from rfl]
    rw [hgen]
    simp [appTemplate, String.append_assoc, truthy, lookupKey]
  exact ⟨_, _, _, hgen2, rfl⟩

/-- C5, amended.  The gallery section renders one card per element of
the photos sequence when it is present, the empty string when the
gallery is falsy, and the undefined value, which the template
interpolates as the text "undefined", when the gallery is truthy but
its photos key is absent. -/
theorem galleryHtml_cases (g : Val) :
    (truthy g = false → galleryHtmlE g = .ok (some "")) ∧
    (∀ m, g = .vmap m → (lookupKey m "photos" = none ∨ lookupKey m "photos" = some Val.undef) →
      galleryHtmlE g = .ok none) ∧
    (∀ m l, g = .vmap m → lookupKey m "photos" = some (.vlist l) →
      (∀ p ∈ l, wfPhoto p = true) →
      ∃ cards, mapME createPhotoCard l = .ok cards ∧
        galleryHtmlE g = .ok (some (String.join cards)) ∧
        List.Forall₂ (fun p c => createPhotoCard p = .ok c) l cards ∧
        cards.length = l.length) := by
  refine ⟨?_, ?_, ?_⟩
  · intro h
    simp [galleryHtmlE, h, pure, Except.pure]
  · intro m hm hp
    subst hm
    rcases hp with hp | hp <;>
      simp [galleryHtmlE, truthy, jsGet, hp, bind, Except.bind, pure, Except.pure]
  · intro m l hm hp hwf
    subst hm
    obtain ⟨cards, hcards, hrel⟩ := mapME_ok_of_forall createPhotoCard l
      (fun x hx => (isOkE_iff _).mp (createPhotoCard_isOk x (hwf x hx)))
    refine ⟨cards, hcards, ?_, hrel, (List.Forall₂.length_eq hrel).symm⟩
    simp [galleryHtmlE, truthy, jsGet, hp, hcards, bind, Except.bind, pure, Except.pure]

/-- Witness for the amended C5: a gallery of two well-formed photos
renders exactly two cards, joined. -/
theorem galleryHtml_cases_witness :
    ∃ cards, mapME createPhotoCard
        [.vmap [("img_src", .str "a.jpg")], .vmap [("img_src", .str "b.jpg")]] = .ok cards ∧
      galleryHtmlE (.vmap [("photos", .vlist
        [.vmap [("img_src", .str "a.jpg")], .vmap [("img_src", .str "b.jpg")]])]) =
        .ok (some (String.join cards)) ∧
      cards.length = 2 := by
  obtain ⟨cards, h1, h2, h3, h4⟩ :=
    (galleryHtml_cases (.vmap [("photos", .vlist
      [.vmap [("img_src", .str "a.jpg")], .vmap [("img_src", .str "b.jpg")]])])).2.2
      _ _ rfl rfl (by decide)
  exact ⟨cards, h1, h2, h4⟩


/-- A Photo object of the data model of spec section 3, with the four
fields the dashboard reads. -/
def photoV (img date cam rov : String) : Val :=
  .vmap [("img_src", .str img), ("earth_date", .str date),
         ("camera", .vmap [("full_name", .str cam)]),
         ("rover", .vmap [("name", .str rov)])]

/-- Characters that survive the serialize-and-embed pipeline
untouched: not a double quote (which the global replace rewrites),
not a single quote (which would close the embedded literal early),
not a backslash, and not a control character. -/
def plainChar (c : Char) : Bool :=
  if c = '\x22' ∨ c = '\x27' ∨ c = '\\' ∨ c.toNat < 32 then false else true

/-- A string of plain characters. -/
def plainStr (s : String) : Bool := s.data.all plainChar

/-- Unfolding of plainness. -/
theorem plainChar_facts (c : Char) (h : plainChar c = true) :
    c ≠ '\x22' ∧ c ≠ '\x27' ∧ c ≠ '\\' ∧ 32 ≤ c.toNat := by
  rw [plainChar] at h
  split_ifs at h with hc
  push_neg at hc
  exact ⟨hc.1, hc.2.1, hc.2.2.1, hc.2.2.2⟩

/-- A plain character serializes to itself. -/
theorem escCharL_plain (c : Char) (h : plainChar c = true) : escCharL c = [c] := by
  obtain ⟨h1, h2, h3, h4⟩ := plainChar_facts c h
  have n1 : c ≠ '\x0a' := by intro he; rw [he] at h4; exact absurd h4 (by decide)
  have n2 : c ≠ '\x09' := by intro he; rw [he] at h4; exact absurd h4 (by decide)
  have n3 : c ≠ '\x0d' := by intro he; rw [he] at h4; exact absurd h4 (by decide)
  have n4 : c ≠ '\x08' := by intro he; rw [he] at h4; exact absurd h4 (by decide)
  have n5 : c ≠ '\x0c' := by intro he; rw [he] at h4; exact absurd h4 (by decide)
  have n6 : ¬ (c.toNat < 32) := by omega
  simp [escCharL, h1, h3, n1, n2, n3, n4, n5, n6]

/-- A plain string serializes to itself. -/
theorem escL_plain (cs : List Char) (h : ∀ c ∈ cs, plainChar c = true) : escL cs = cs := by
  induction cs with
  | nil => rfl
  | cons c rest ih =>
    rw [escL, escCharL_plain c (h c (List.mem_cons_self c rest)),
      ih (fun x hx => h x (List.mem_cons_of_mem c hx))]
    rfl

/-- The quote replacement leaves plain characters alone. -/
theorem map_replChar_plain (cs : List Char) (h : ∀ c ∈ cs, plainChar c = true) :
    cs.map replChar = cs := by
  induction cs with
  | nil => rfl
  | cons c rest ih =>
    have h1 := (plainChar_facts c (h c (List.mem_cons_self c rest))).1
    rw [List.map_cons, ih (fun x hx => h x (List.mem_cons_of_mem c hx))]
    simp [replChar, h1]

/-- Parsing the body of a single-quoted literal whose content is
plain consumes the content up to the closing quote. -/
theorem parseStrBody_plain (cs : List Char) (h : ∀ c ∈ cs, plainChar c = true)
    (acc rest : List Char) :
    parseStrBody acc (cs ++ '\x27' :: rest) = some (String.mk (acc ++ cs), rest) := by
  induction cs generalizing acc with
  | nil =>
    rw [parseStrBody.eq_def]
    simp
  | cons c cs ih =>
    obtain ⟨h1, h2, h3, h4⟩ := plainChar_facts c (h c (List.mem_cons_self c cs))
    rw [List.cons_append, parseStrBody.eq_def]
    simp [h2, h3, ih (fun x hx => h x (List.mem_cons_of_mem c hx))]

/-- Plainness of every character of a plain string. -/
theorem plainStr_forall (s : String) (h : plainStr s = true) :
    ∀ c ∈ s.data, plainChar c = true := by
  rw [plainStr, List.all_eq_true] at h
  exact h

/-- The parser on a single-quoted literal with plain content. -/
theorem parseVal_str (F : Nat) (v : String) (hv : plainStr v = true) (tail : List Char) :
    parseVal (F + 1) ('\x27' :: (v.data ++ '\x27' :: tail)) = some (.str v, tail) := by
  have e : parseVal (F + 1) ('\x27' :: (v.data ++ '\x27' :: tail)) =
      (parseStrBody [] (v.data ++ '\x27' :: tail)).map (fun p => (Val.str p.1, p.2)) := rfl
  rw [e, parseStrBody_plain v.data (plainStr_forall v hv) [] tail]
  rfl

/-- One member of an embedded object literal with a plain key, whose
value parse leaves a comma: the member is accumulated and parsing
continues. -/
theorem parseMembers_cons (F : Nat) (k : String) (hk : plainStr k = true)
    (rest tail : List Char) (v : Val) (acc : List (String × Val))
    (hv : parseVal (F + 1) rest = some (v, ',' :: tail)) :
    parseMembers (F + 2) ('\x27' :: (k.data ++ '\x27' :: ':' :: rest)) acc =
      parseMembers (F + 1) tail (acc ++ [(k, v)]) := by
  have e : parseMembers (F + 2) ('\x27' :: (k.data ++ '\x27' :: ':' :: rest)) acc =
      match parseStrBody [] (k.data ++ '\x27' :: ':' :: rest) with
      | some (kk, ':' :: cs2) =>
        (match parseVal (F + 1) cs2 with
          | some (vv, ',' :: cs3) => parseMembers (F + 1) cs3 (acc ++ [(kk, vv)])
          | some (vv, '\x7d' :: cs3) => some (.vmap (acc ++ [(kk, vv)]), cs3)
          | _ => none)
      | _ => none := rfl
  rw [e, parseStrBody_plain k.data (plainStr_forall k hk) [] (':' :: rest)]
  simp only [hv]
  rfl

/-- The last member of an embedded object literal with a plain key,
whose value parse leaves the closing brace: the object is
delivered. -/
theorem parseMembers_last (F : Nat) (k : String) (hk : plainStr k = true)
    (rest tail : List Char) (v : Val) (acc : List (String × Val))
    (hv : parseVal (F + 1) rest = some (v, '\x7d' :: tail)) :
    parseMembers (F + 2) ('\x27' :: (k.data ++ '\x27' :: ':' :: rest)) acc =
      some (.vmap (acc ++ [(k, v)]), tail) := by
  have e : parseMembers (F + 2) ('\x27' :: (k.data ++ '\x27' :: ':' :: rest)) acc =
      match parseStrBody [] (k.data ++ '\x27' :: ':' :: rest) with
      | some (kk, ':' :: cs2) =>
        (match parseVal (F + 1) cs2 with
          | some (vv, ',' :: cs3) => parseMembers (F + 1) cs3 (acc ++ [(kk, vv)])
          | some (vv, '\x7d' :: cs3) => some (.vmap (acc ++ [(kk, vv)]), cs3)
          | _ => none)
      | _ => none := rfl
  rw [e, parseStrBody_plain k.data (plainStr_forall k hk) [] (':' :: rest)]
  simp only [hv]
  rfl

/-- The parser on an embedded one-member object whose key and string
value are plain. -/
theorem parseVal_obj1 (F : Nat) (ik iv : String) (hik : plainStr ik = true)
    (hiv : plainStr iv = true) (tail : List Char) :
    parseVal (F + 3)
      ('\x7b' :: '\x27' :: (ik.data ++ '\x27' :: ':' :: '\x27' :: (iv.data ++ '\x27' :: '\x7d' :: tail))) =
      some (.vmap [(ik, .str iv)], tail) := by
  have e : parseVal (F + 3)
      ('\x7b' :: '\x27' :: (ik.data ++ '\x27' :: ':' :: '\x27' :: (iv.data ++ '\x27' :: '\x7d' :: tail))) =
      parseMembers (F + 2)
        ('\x27' :: (ik.data ++ '\x27' :: ':' :: '\x27' :: (iv.data ++ '\x27' :: '\x7d' :: tail))) [] := rfl
  rw [e, parseMembers_last (F := F) ik hik _ tail (.str iv) []
    (parseVal_str F iv hiv ('\x7d' :: tail))]
  rfl


/-- The character sequence convertToJSON produces for a Photo whose
field strings are plain: the JSON shape with every double quote
already replaced by a single quote. -/
def serPhotoL (img date cam rov : String) : List Char :=
  '\x7b' :: '\x27' ::
  ("img_src".data ++ '\x27' :: ':' :: '\x27' ::
  (img.data ++ '\x27' :: ',' :: '\x27' ::
  ("earth_date".data ++ '\x27' :: ':' :: '\x27' ::
  (date.data ++ '\x27' :: ',' :: '\x27' ::
  ("camera".data ++ '\x27' :: ':' :: '\x7b' :: '\x27' ::
  ("full_name".data ++ '\x27' :: ':' :: '\x27' ::
  (cam.data ++ '\x27' :: '\x7d' :: ',' :: '\x27' ::
  ("rover".data ++ '\x27' :: ':' :: '\x7b' :: '\x27' ::
  ("name".data ++ '\x27' :: ':' :: '\x27' ::
  (rov.data ++ '\x27' :: '\x7d' :: '\x7d' :: []))))))))))

/-- Serialization of a plain-field Photo: convertToJSON produces
exactly the single-quoted shape above. -/
theorem convertToJSON_photoV (img date cam rov : String)
    (hi : plainStr img = true) (hd : plainStr date = true)
    (hc : plainStr cam = true) (hr : plainStr rov = true) :
    convertToJSON (photoV img date cam rov) = .ok (String.mk (serPhotoL img date cam rov)) := by
  have e1 : escL img.data = img.data := escL_plain img.data (plainStr_forall img hi)
  have e2 : escL date.data = date.data := escL_plain date.data (plainStr_forall date hd)
  have e3 : escL cam.data = cam.data := escL_plain cam.data (plainStr_forall cam hc)
  have e4 : escL rov.data = rov.data := escL_plain rov.data (plainStr_forall rov hr)
  have p1 : List.map replChar img.data = img.data :=
    map_replChar_plain img.data (plainStr_forall img hi)
  have p2 : List.map replChar date.data = date.data :=
    map_replChar_plain date.data (plainStr_forall date hd)
  have p3 : List.map replChar cam.data = cam.data :=
    map_replChar_plain cam.data (plainStr_forall cam hc)
  have p4 : List.map replChar rov.data = rov.data :=
    map_replChar_plain rov.data (plainStr_forall rov hr)
  have k1 : escL "img_src".data = "img_src".data := rfl
  have k2 : escL "earth_date".data = "earth_date".data := rfl
  have k3 : escL "camera".data = "camera".data := rfl
  have k4 : escL "full_name".data = "full_name".data := rfl
  have k5 : escL "rover".data = "rover".data := rfl
  have k6 : escL "name".data = "name".data := rfl
  have q1 : List.map replChar "img_src".data = "img_src".data := rfl
  have q2 : List.map replChar "earth_date".data = "earth_date".data := rfl
  have q3 : List.map replChar "camera".data = "camera".data := rfl
  have q4 : List.map replChar "full_name".data = "full_name".data := rfl
  have q5 : List.map replChar "rover".data = "rover".data := rfl
  have q6 : List.map replChar "name".data = "name".data := rfl
  have r0 : replChar '\x22' = '\x27' := rfl
  have r1 : replChar '\x7b' = '\x7b' := rfl
  have r2 : replChar '\x7d' = '\x7d' := rfl
  have r3 : replChar ':' = ':' := rfl
  have r4 : replChar ',' = ',' := rfl
  simp [convertToJSON, photoV, jsonStringifyL, jsonMembersL, joinCommaL, serPhotoL,
    e1, e2, e3, e4, p1, p2, p3, p4, k1, k2, k3, k4, k5, k6,
    q1, q2, q3, q4, q5, q6, r0, r1, r2, r3, r4, List.map_append]
  rfl

/-- Parsing the serialized plain-field Photo recovers it whole. -/
theorem parseEmbedded_serPhoto (img date cam rov : String)
    (hi : plainStr img = true) (hd : plainStr date = true)
    (hc : plainStr cam = true) (hr : plainStr rov = true) :
    parseEmbedded (String.mk (serPhotoL img date cam rov)) = some (photoV img date cam rov) := by
  have e0 : ∀ (F : Nat) (rest : List Char),
      parseVal (F + 1) ('\x7b' :: '\x27' :: rest) = parseMembers F ('\x27' :: rest) [] :=
    fun F rest => rfl
  have etop : parseEmbedded (String.mk (serPhotoL img date cam rov)) =
      match parseVal 64 (serPhotoL img date cam rov) with
      | some (v, []) => some v
      | _ => none := rfl
  rw [etop]
  rw [show serPhotoL img date cam rov = '\x7b' :: '\x27' ::
    ("img_src".data ++ '\x27' :: ':' :: '\x27' ::
    (img.data ++ '\x27' :: ',' :: '\x27' ::
    ("earth_date".data ++ '\x27' :: ':' :: '\x27' ::
    (date.data ++ '\x27' :: ',' :: '\x27' ::
    ("camera".data ++ '\x27' :: ':' :: '\x7b' :: '\x27' ::
    ("full_name".data ++ '\x27' :: ':' :: '\x27' ::
    (cam.data ++ '\x27' :: '\x7d' :: ',' :: '\x27' ::
    ("rover".data ++ '\x27' :: ':' :: '\x7b' :: '\x27' ::
    ("name".data ++ '\x27' :: ':' :: '\x27' ::
    (rov.data ++ '\x27' :: '\x7d' :: '\x7d' :: [])))))))))) from rfl]
  rw [e0 63]
  rw [parseMembers_cons 61 "img_src" (by decide) _ _ _ _ (parseVal_str 61 img hi _)]
  rw [parseMembers_cons 60 "earth_date" (by decide) _ _ _ _ (parseVal_str 60 date hd _)]
  rw [parseMembers_cons 59 "camera" (by decide) _ _ _ _
    (parseVal_obj1 57 "full_name" cam (by decide) hc _)]
  rw [parseMembers_last 58 "rover" (by decide) _ _ _ _
    (parseVal_obj1 56 "name" rov (by decide) hr _)]
  simp [photoV]

/-- C6, counterexample.  A Photo whose img_src contains a double
quote does not survive the round trip: the global quote replacement
of convertToJSON rewrites the quote inside the value, and the parsed
photo comes back with a single quote where the original had a double
quote. -/
theorem convertToJSON_roundtrip_fails_on_quote :
    (do
      let s ← convertToJSON (photoV "a\x22b" "2024-01-01" "FHAZ" "Curiosity")
      pure (parseEmbedded s) : Except Unit (Option Val)) =
      .ok (some (photoV "a\x27b" "2024-01-01" "FHAZ" "Curiosity")) ∧
    photoV "a\x27b" "2024-01-01" "FHAZ" "Curiosity" ≠
      photoV "a\x22b" "2024-01-01" "FHAZ" "Curiosity" := by
  constructor
  · rfl
  · simp [photoV]

/-- C6, amended.  For every Photo whose four field strings contain
no quote, backslash or control character (as the URLs, dates and
names of the upstream API do), serializing with convertToJSON and
parsing the embedded string back yields a photo field for field equal
to the original. -/
theorem convertToJSON_roundtrip_plain (img date cam rov : String)
    (hi : plainStr img = true) (hd : plainStr date = true)
    (hc : plainStr cam = true) (hr : plainStr rov = true) :
    ∃ s, convertToJSON (photoV img date cam rov) = .ok s ∧
      parseEmbedded s = some (photoV img date cam rov) :=
  ⟨String.mk (serPhotoL img date cam rov),
    convertToJSON_photoV img date cam rov hi hd hc hr,
    parseEmbedded_serPhoto img date cam rov hi hd hc hr⟩

/-- Witness for the amended C6 at a concrete plain photo. -/
theorem convertToJSON_roundtrip_plain_witness :
    plainStr "mars.jpg" = true ∧
    ∃ s, convertToJSON (photoV "mars.jpg" "2024-02-19" "FHAZ" "Curiosity") = .ok s ∧
      parseEmbedded s = some (photoV "mars.jpg" "2024-02-19" "FHAZ" "Curiosity") :=
  ⟨by decide, convertToJSON_roundtrip_plain "mars.jpg" "2024-02-19" "FHAZ" "Curiosity"
    (by decide) (by decide) (by decide) (by decide)⟩

end MarsDash